import Mathlib

/-!
# A shallow embedding of the gpt-oss-voice CLI core

This file embeds the core components of the `gpt-oss-voice` terminal agent
(`src/cli/state.py`, `src/cli/renderer.py`, `src/cli/raw_input.py`,
`src/cli/app.py`) as executable Lean definitions and proves properties of
them.  Python strings that are edited character by character are modelled as
`List Char`; wall-clock timestamps (`time.time()`) are modelled as rationals
passed in explicitly; thread locks are elided because every modelled method
body is a single critical section.
-/

/-- `AppState` from `state.py`: the four lifecycle phases.  The spec names
them Idle / Processing / Responding / Error. -/
inductive AppState
  | IDLE
  | THINKING
  | TALKING
  | ERROR
deriving DecidableEq

/-- `StateTransition` from `state.py`: a record of one transition. -/
structure StateTransition where
  from_state : AppState
  to_state : AppState
  timestamp : ℚ
deriving DecidableEq

/-- The fields of `StateManager.__init__` (the lock and the observer list are
elided: observers receive notifications but never alter these fields, and
`_notify_observers` swallows their exceptions). -/
structure StateManager where
  state : AppState := .IDLE
  state_entered_at : ℚ := 0
  last_error : Option String := none
  speaking_text : Option String := none
  history : List StateTransition := []
deriving DecidableEq

/-- `StateManager.VALID_TRANSITIONS` (state.py lines 61-66). -/
def VALID_TRANSITIONS : AppState → List AppState
  | .IDLE => [.THINKING]
  | .THINKING => [.TALKING, .IDLE, .ERROR]
  | .TALKING => [.IDLE, .ERROR]
  | .ERROR => [.IDLE]

namespace StateManager

/-- `StateManager.transition_to` (state.py lines 142-164): validated,
returns whether the transition happened.  `now` stands for `time.time()`. -/
def transition_to (m : StateManager) (new_state : AppState) (now : ℚ) :
    Bool × StateManager :=
  if new_state ∈ VALID_TRANSITIONS m.state then
    (true,
      { m with
        state := new_state
        state_entered_at := now
        last_error := if m.state = .ERROR then none else m.last_error
        history := m.history ++ [⟨m.state, new_state, now⟩] })
  else
    (false, m)

/-- `StateManager.set_error` (state.py lines 129-141): stores the message
first, then attempts the validated transition to `ERROR`. -/
def set_error (m : StateManager) (message : String) (now : ℚ) :
    Bool × StateManager :=
  transition_to { m with last_error := some message } .ERROR now

/-- `StateManager.force_state` (state.py lines 166-175): changes only the
current state, bypassing validation; it does not touch the timestamp, the
stored error, or the transition history. -/
def force_state (m : StateManager) (new_state : AppState) : StateManager :=
  { m with state := new_state }

/-- `StateManager.set_speaking_text` (state.py lines 120-127). -/
def set_speaking_text (m : StateManager) (text : Option String) : StateManager :=
  { m with speaking_text := text }

/-- `StateManager.duration` (state.py lines 102-106): seconds in state. -/
def duration (m : StateManager) (now : ℚ) : ℚ :=
  now - m.state_entered_at

end StateManager

/-- The mutable fields of `StreamingRenderer` (renderer.py): the revealed
prefix is `full_text[:current_pos]`; the worker-thread handle and the timing
configuration do not affect the revealed text once `stop` has run. -/
structure StreamingRenderer where
  full_text : List Char := []
  current_pos : Nat := 0
  running : Bool := false
  complete : Bool := false
deriving DecidableEq

namespace StreamingRenderer

/-- `StreamingRenderer.stop` (renderer.py lines 140-148): jump the cursor to
the end and mark complete. -/
def stop (r : StreamingRenderer) : StreamingRenderer :=
  { r with current_pos := r.full_text.length, running := false, complete := true }

/-- `StreamingRenderer.skip` (renderer.py lines 150-152): alias for `stop`. -/
def skip (r : StreamingRenderer) : StreamingRenderer :=
  stop r

/-- `StreamingRenderer.current_text` (renderer.py lines 102-106). -/
def current_text (r : StreamingRenderer) : List Char :=
  r.full_text.take r.current_pos

/-- `StreamingRenderer.is_complete` (renderer.py lines 108-111). -/
def is_complete (r : StreamingRenderer) : Bool :=
  r.complete

/-- `StreamingRenderer.is_streaming` (renderer.py lines 113-116). -/
def is_streaming (r : StreamingRenderer) : Bool :=
  r.running && !r.complete

/-- `StreamingRenderer.start_stream` (renderer.py lines 118-138): stops any
current stream, installs the new text with the cursor at 0, and restarts. -/
def start_stream (r : StreamingRenderer) (text : List Char) : StreamingRenderer :=
  { stop r with full_text := text, current_pos := 0, complete := false, running := true }

end StreamingRenderer

/-- C1: for every pair of lifecycle phases, `transition_to new_state` returns
`true` iff `new_state` is in the current phase's allowed-target set
(Idle→Processing; Processing→Responding/Idle/Error; Responding→Idle/Error;
Error→Idle), and when it returns `false` the machine's state (current phase,
phase-entry timestamp, stored error message, and all other fields) is
unchanged. -/
theorem C1_transition_iff_allowed (m : StateManager) (new_state : AppState) (now : ℚ) :
    (VALID_TRANSITIONS .IDLE = [.THINKING] ∧
     VALID_TRANSITIONS .THINKING = [.TALKING, .IDLE, .ERROR] ∧
     VALID_TRANSITIONS .TALKING = [.IDLE, .ERROR] ∧
     VALID_TRANSITIONS .ERROR = [.IDLE]) ∧
    ((StateManager.transition_to m new_state now).1 = true ↔
      new_state ∈ VALID_TRANSITIONS m.state) ∧
    ((StateManager.transition_to m new_state now).1 = false →
      (StateManager.transition_to m new_state now).2 = m) := by
  refine ⟨⟨rfl, rfl, rfl, rfl⟩, ?_, ?_⟩
  · unfold StateManager.transition_to
    split
    next hmem => simpa using hmem
    next hmem => simpa using hmem
  · intro hfail
    unfold StateManager.transition_to at hfail ⊢
    by_cases hmem : new_state ∈ VALID_TRANSITIONS m.state
    · rw [if_pos hmem] at hfail
      simp at hfail
    · rw [if_neg hmem]

/-- Witness for C1: from `IDLE`, the transition to `TALKING` is refused and
the manager is returned unchanged. -/
theorem C1_transition_iff_allowed_witness :
    (StateManager.transition_to {} .TALKING 1).2 = ({} : StateManager) :=
  (C1_transition_iff_allowed {} .TALKING 1).2.2 (by decide)

/-- A reachable manager sitting in `IDLE` with a previously stored error
message: starting from the initial manager, `set_error "old"` from `IDLE`
fails the transition but (as proved below) still records the message. -/
def c7m : StateManager :=
  { state := .IDLE, state_entered_at := 0, last_error := some "old",
    speaking_text := none, history := [] }

/-- C7 counterexample: with Error not a valid target from `IDLE`,
`set_error "new"` returns `false` yet the machine is changed — the stored
error message has been overwritten. -/
theorem C7_counterexample :
    (StateManager.set_error c7m "new" 1).1 = false ∧
    (StateManager.set_error c7m "new" 1).2 ≠ c7m ∧
    (StateManager.set_error c7m "new" 1).2.last_error = some "new" := by
  decide

/-- C7 (amended): `set_error message` records the message first and then
behaves exactly as `transition_to ERROR`: when Error is not a valid target
from the current phase the call returns `false`, never throws, and leaves the
phase, the phase-entry timestamp and the transition history unchanged — but
the stored error message has already been overwritten with `message`.  On
success the machine is in `ERROR` with the message stored. -/
theorem C7_set_error_records_then_transitions (m : StateManager) (message : String) (now : ℚ) :
    (StateManager.set_error m message now =
      StateManager.transition_to { m with last_error := some message } .ERROR now) ∧
    ((StateManager.set_error m message now).1 = false →
      (StateManager.set_error m message now).2 = { m with last_error := some message }) ∧
    ((StateManager.set_error m message now).1 = true →
      (StateManager.set_error m message now).2.state = .ERROR ∧
      (StateManager.set_error m message now).2.last_error = some message) := by
  refine ⟨rfl, ?_, ?_⟩
  · intro hfail
    unfold StateManager.set_error StateManager.transition_to at hfail ⊢
    split at hfail
    · simp at hfail
    · split
      next hmem => simp_all
      next => rfl
  · intro hok
    unfold StateManager.set_error StateManager.transition_to at hok ⊢
    by_cases hmem : AppState.ERROR ∈ VALID_TRANSITIONS m.state
    · have hne : m.state ≠ AppState.ERROR := by
        intro h
        rw [h] at hmem
        simp [VALID_TRANSITIONS] at hmem
      rw [if_pos hmem]
      simp [hne]
    · rw [if_neg hmem] at hok
      simp at hok

/-- Witness for C7: both implications fired at concrete inputs — a failing
`set_error` from `IDLE` leaves everything but the message unchanged, and a
succeeding `set_error` from `THINKING` lands in `ERROR` with the message. -/
theorem C7_set_error_records_then_transitions_witness :
    (StateManager.set_error c7m "new" 1).2 = { c7m with last_error := some "new" } ∧
    ((StateManager.set_error { state := .THINKING } "boom" 2).2.state = .ERROR ∧
     (StateManager.set_error { state := .THINKING } "boom" 2).2.last_error = some "boom") :=
  ⟨(C7_set_error_records_then_transitions c7m "new" 1).2.1 (by decide),
   (C7_set_error_records_then_transitions { state := .THINKING } "boom" 2).2.2 (by decide)⟩

/-- C9: `skip` is idempotent — after one `skip`, `current_text` is the full
target text and `is_complete` is true, and a second `skip` changes nothing. -/
theorem C9_skip_idempotent (r : StreamingRenderer) :
    StreamingRenderer.skip (StreamingRenderer.skip r) = StreamingRenderer.skip r ∧
    StreamingRenderer.current_text (StreamingRenderer.skip r) = r.full_text ∧
    StreamingRenderer.is_complete (StreamingRenderer.skip r) = true := by
  refine ⟨rfl, ?_, rfl⟩
  simp [StreamingRenderer.skip, StreamingRenderer.stop, StreamingRenderer.current_text]

/-- `InputEventType` from `raw_input.py` lines 17-22. -/
inductive InputEventType
  | TEXT
  | EXIT
  | INTERRUPT
  | CHAR
deriving DecidableEq

/-- `InputEvent` from `raw_input.py` lines 25-30.  The Python `str` fields
`text` and `char` are modelled as `List Char` (empty list for `""`). -/
structure InputEvent where
  type : InputEventType
  text : List Char := []
  char : List Char := []
deriving DecidableEq

/-- `RawInputHandler.MAX_INPUT_LENGTH` (raw_input.py line 53). -/
def MAX_INPUT_LENGTH : Nat := 10000

/-- `RawInputHandler.EXIT_COMMANDS` (raw_input.py line 52). -/
def EXIT_COMMANDS : List (List Char) :=
  [['e', 'x', 'i', 't'], ['q', 'u', 'i', 't'],
   ['/', 'e', 'x', 'i', 't'], ['/', 'q', 'u', 'i', 't']]

/-- Python `str.strip()` on the input line: drop whitespace from both ends. -/
def pyStrip (l : List Char) : List Char :=
  ((l.dropWhile Char.isWhitespace).reverse.dropWhile Char.isWhitespace).reverse

/-- Python `str.lower()`. -/
def pyLower (l : List Char) : List Char :=
  l.map Char.toLower

/-- Python negative-index access `history[i]` with `-len ≤ i ≤ -1` (the only
range the decoder uses). -/
def negGet (hist : List (List Char)) (i : Int) : List Char :=
  hist.getD ((hist.length : Int) + i).toNat []

/-- The mutable fields of `RawInputHandler.__init__` (raw_input.py lines
55-67).  `old_settings` is `true` when `_old_settings is not None`, i.e.
after `start()`. -/
structure RawInputHandler where
  input_buffer : List Char := []
  cursor_pos : Nat := 0
  old_settings : Bool := false
  enabled : Bool := false
  events : List InputEvent := []
  history : List (List Char) := []
  history_index : Int := -1
  escape_buffer : List Char := []
  last_was_escape : Bool := false
deriving DecidableEq

namespace RawInputHandler

/-- `RawInputHandler.enable` (raw_input.py lines 103-105). -/
def enable (h : RawInputHandler) : RawInputHandler :=
  { h with enabled := true }

/-- `RawInputHandler.disable` (raw_input.py lines 107-109). -/
def disable (h : RawInputHandler) : RawInputHandler :=
  { h with enabled := false }

/-- `RawInputHandler.clear_buffer` (raw_input.py lines 111-114). -/
def clear_buffer (h : RawInputHandler) : RawInputHandler :=
  { h with input_buffer := [], cursor_pos := 0 }

/-- `RawInputHandler.input_text` (raw_input.py lines 69-72). -/
def input_text (h : RawInputHandler) : List Char :=
  h.input_buffer

/-- The trailing `if self._events: return self._events.pop(0)` of
`get_event` (raw_input.py lines 363-367). -/
def popEvent (h : RawInputHandler) (q : List Char) :
    Option InputEvent × RawInputHandler × List Char :=
  match h.events with
  | [] => (none, h, q)
  | e :: es => (some e, { h with events := es }, q)

/-- The arrow-key dispatch shared verbatim by the two sites in `get_event`
(raw_input.py lines 144-167 in the pending-escape path and lines 249-295 in
the fresh-escape path): right/left move the cursor clamped, up/down walk the
history; an empty `CHAR` event is appended exactly when something changed
(down always appends). -/
def handleArrow (h : RawInputHandler) (k : Char) : RawInputHandler :=
  if k = 'C' then
    if h.cursor_pos < h.input_buffer.length then
      { h with cursor_pos := h.cursor_pos + 1,
               events := h.events ++ [{ type := .CHAR }] }
    else h
  else if k = 'D' then
    if 0 < h.cursor_pos then
      { h with cursor_pos := h.cursor_pos - 1,
               events := h.events ++ [{ type := .CHAR }] }
    else h
  else if k = 'A' then
    if h.history ≠ [] then
      let idx := max (-(h.history.length : Int)) (h.history_index - 1)
      { h with history_index := idx,
               input_buffer := negGet h.history idx,
               cursor_pos := (negGet h.history idx).length,
               events := h.events ++ [{ type := .CHAR }] }
    else h
  else if k = 'B' then
    if h.history_index < -1 then
      let idx := h.history_index + 1
      { h with history_index := idx,
               input_buffer := negGet h.history idx,
               cursor_pos := (negGet h.history idx).length,
               events := h.events ++ [{ type := .CHAR }] }
    else
      { h with input_buffer := [], cursor_pos := 0, history_index := -1,
               events := h.events ++ [{ type := .CHAR }] }
  else h

/-- The history push on submission (raw_input.py lines 204-208): append
unless equal to the most recent entry, then evict the oldest entry when the
length exceeds 100. -/
def pushHistory (hist : List (List Char)) (text : List Char) : List (List Char) :=
  if hist = [] ∨ hist.getLast? ≠ some text then
    if 100 < (hist ++ [text]).length then (hist ++ [text]).drop 1 else hist ++ [text]
  else hist

/-- The Enter branch of `get_event` (raw_input.py lines 201-219): strip the
buffer; when non-empty, push to history, reset the history index, and emit
`EXIT` for an exit command or `TEXT` otherwise; always clear the buffer. -/
def submitLine (h : RawInputHandler) : RawInputHandler :=
  if pyStrip h.input_buffer ≠ [] then
    if pyLower (pyStrip h.input_buffer) ∈ EXIT_COMMANDS then
      { h with history := pushHistory h.history (pyStrip h.input_buffer),
               history_index := -1,
               events := h.events ++ [{ type := .EXIT }],
               input_buffer := [], cursor_pos := 0 }
    else
      { h with history := pushHistory h.history (pyStrip h.input_buffer),
               history_index := -1,
               events := h.events ++ [{ type := .TEXT, text := pyStrip h.input_buffer }],
               input_buffer := [], cursor_pos := 0 }
  else
    { h with input_buffer := [], cursor_pos := 0 }

/-- The Backspace branch of `get_event` (raw_input.py lines 220-231). -/
def backspaceStep (h : RawInputHandler) : RawInputHandler :=
  if 0 < h.cursor_pos then
    { h with
      input_buffer := h.input_buffer.take (h.cursor_pos - 1) ++
        h.input_buffer.drop h.cursor_pos,
      cursor_pos := h.cursor_pos - 1,
      events := h.events ++ [{ type := .CHAR }] }
  else h

/-- The fresh-escape branch of `get_event` (raw_input.py lines 232-306):
greedily read up to two more currently-available bytes; a complete
`ESC [ A-D` is dispatched as an arrow key, an unrecognized third byte is
consumed and ignored, and an incomplete sequence is saved in
`escape_buffer` for the next call. -/
def escStep (h : RawInputHandler) (q : List Char) :
    Option InputEvent × RawInputHandler × List Char :=
  match q with
  | [] =>
    popEvent { h with escape_buffer := ['\x1b'], last_was_escape := true } []
  | c2 :: rest2 =>
    if c2 = '[' then
      match rest2 with
      | [] =>
        popEvent { h with escape_buffer := ['\x1b', '['], last_was_escape := true } []
      | c3 :: rest3 =>
        if c3 = 'A' ∨ c3 = 'B' ∨ c3 = 'C' ∨ c3 = 'D' then
          popEvent (handleArrow h c3) rest3
        else
          popEvent { h with last_was_escape := true } rest3
    else
      popEvent { h with escape_buffer := ['\x1b', c2], last_was_escape := true } rest2

/-- The printable-character insertion of `get_event` (raw_input.py lines
343-358), guarded by the buffer-length ceiling (lines 344-347, an early
`return None`). -/
def insertPrintable (h : RawInputHandler) (c : Char) (q : List Char) :
    Option InputEvent × RawInputHandler × List Char :=
  if MAX_INPUT_LENGTH ≤ h.input_buffer.length then (none, h, q)
  else
    popEvent
      { h with
        input_buffer := h.input_buffer.take h.cursor_pos ++
          c :: h.input_buffer.drop h.cursor_pos,
        cursor_pos := h.cursor_pos + 1,
        events := h.events ++ [{ type := .CHAR, char := [c] }] } q

/-- The printable-byte policy of `get_event` (raw_input.py lines 308-358):
a `[` probes the next available byte — dropped together with a following
arrow letter, dropped when alone or followed by a non-printable byte, and
inserted (with the probed byte consumed but not inserted) when followed by
another printable byte; a `C`/`D` right after a pending or just-resolved
escape is dropped and the flag cleared; anything else is inserted. -/
def printableStep (h : RawInputHandler) (c : Char) (q : List Char) :
    Option InputEvent × RawInputHandler × List Char :=
  if c = '[' then
    match q with
    | [] => popEvent h []
    | c2 :: rest2 =>
      if c2 = 'A' ∨ c2 = 'B' ∨ c2 = 'C' ∨ c2 = 'D' then popEvent h rest2
      else if 32 ≤ c2.toNat then insertPrintable h c rest2
      else popEvent h rest2
  else if (c = 'C' ∨ c = 'D') ∧ (h.escape_buffer ≠ [] ∨ h.last_was_escape) then
    popEvent { h with last_was_escape := false } q
  else insertPrintable h c q

/-- The dispatch on a freshly read byte in `get_event` (raw_input.py lines
190-358): Ctrl-C, Ctrl-D, Enter, Backspace, ESC, then printable bytes;
control bytes below 32 that match nothing are consumed silently. -/
def controlStep (h : RawInputHandler) (c : Char) (q : List Char) :
    Option InputEvent × RawInputHandler × List Char :=
  if c.toNat = 3 then
    popEvent { h with events := h.events ++ [{ type := .INTERRUPT }] } q
  else if c.toNat = 4 then
    popEvent { h with events := h.events ++ [{ type := .EXIT }] } q
  else if c.toNat = 13 ∨ c.toNat = 10 then
    popEvent (submitLine h) q
  else if c.toNat = 127 ∨ c.toNat = 8 then
    popEvent (backspaceStep h) q
  else if c.toNat = 27 then
    escStep h q
  else if 32 ≤ c.toNat then
    printableStep h c q
  else
    popEvent h q

/-- The pending-escape path of `get_event` (raw_input.py lines 129-184):
consume exactly one available byte into `escape_buffer`; at three bytes the
sequence is resolved — a valid arrow is dispatched (clearing the
just-resolved flag), anything else is discarded silently (leaving the
flag). -/
def bufferStep (h : RawInputHandler) (q : List Char) :
    Option InputEvent × RawInputHandler × List Char :=
  match q with
  | [] => (none, h, [])
  | c :: rest =>
    if 3 ≤ (h.escape_buffer ++ [c]).length then
      match (h.escape_buffer ++ [c]).get? 1, (h.escape_buffer ++ [c]).get? 2 with
      | some b, some k =>
        if b = '[' ∧ (k = 'A' ∨ k = 'B' ∨ k = 'C' ∨ k = 'D') then
          popEvent
            { handleArrow { h with escape_buffer := [] } k with last_was_escape := false }
            rest
        else (none, { h with escape_buffer := [] }, rest)
      | _, _ => (none, { h with escape_buffer := [] }, rest)
    else (none, { h with escape_buffer := h.escape_buffer ++ [c] }, rest)

/-- `RawInputHandler.get_event` (raw_input.py lines 116-367) as a function
of the handler state and the bytes currently readable from stdin (`select`
reports a byte available exactly when the queue is non-empty); it returns
the produced event, the new handler state, and the bytes left unread. -/
def get_event (h : RawInputHandler) (q : List Char) :
    Option InputEvent × RawInputHandler × List Char :=
  if h.enabled = false ∨ h.old_settings = false then (none, h, q)
  else if h.escape_buffer ≠ [] then bufferStep h q
  else
    match q with
    | [] => (none, h, [])
    | c :: rest => controlStep h c rest

end RawInputHandler

namespace RawInputHandler

@[simp]
theorem popEvent_history (h : RawInputHandler) (q : List Char) :
    ((popEvent h q).2.1).history = h.history := by
  unfold popEvent
  split <;> rfl

@[simp]
theorem handleArrow_history (h : RawInputHandler) (k : Char) :
    (handleArrow h k).history = h.history := by
  unfold handleArrow
  split_ifs <;> rfl

@[simp]
theorem backspaceStep_history (h : RawInputHandler) :
    (backspaceStep h).history = h.history := by
  unfold backspaceStep
  split_ifs <;> rfl

@[simp]
theorem insertPrintable_history (h : RawInputHandler) (c : Char) (q : List Char) :
    ((insertPrintable h c q).2.1).history = h.history := by
  unfold insertPrintable
  split_ifs <;> simp

@[simp]
theorem escStep_history (h : RawInputHandler) (q : List Char) :
    ((escStep h q).2.1).history = h.history := by
  rcases q with _ | ⟨c2, rest2⟩
  · simp [escStep]
  · rcases rest2 with _ | ⟨c3, rest3⟩
    · simp only [escStep]
      split_ifs <;> simp
    · simp only [escStep]
      split_ifs <;> simp

@[simp]
theorem printableStep_history (h : RawInputHandler) (c : Char) (q : List Char) :
    ((printableStep h c q).2.1).history = h.history := by
  by_cases hc : c = '['
  · rcases q with _ | ⟨c2, rest2⟩
    · simp [printableStep, hc]
    · simp only [printableStep, hc, if_pos]
      split_ifs <;> simp
  · simp only [printableStep, if_neg hc]
    split_ifs <;> simp

theorem submitLine_history (h : RawInputHandler) :
    (submitLine h).history =
      if pyStrip h.input_buffer = [] then h.history
      else pushHistory h.history (pyStrip h.input_buffer) := by
  unfold submitLine
  split_ifs <;> simp_all

theorem submitLine_history_index (h : RawInputHandler)
    (hne : pyStrip h.input_buffer ≠ []) :
    (submitLine h).history_index = -1 := by
  unfold submitLine
  split_ifs <;> simp_all

theorem pushHistory_length_le (hist : List (List Char)) (t : List Char)
    (hle : hist.length ≤ 100) : (pushHistory hist t).length ≤ 100 := by
  unfold pushHistory
  split_ifs <;> simp_all

@[simp]
theorem bufferStep_history (h : RawInputHandler) (q : List Char) :
    ((bufferStep h q).2.1).history = h.history := by
  rcases q with _ | ⟨c, rest⟩
  · simp [bufferStep]
  · simp only [bufferStep]
    split_ifs
    · split
      · split_ifs <;> simp
      · simp
    · simp

theorem controlStep_history_le (h : RawInputHandler) (c : Char) (q : List Char)
    (hle : h.history.length ≤ 100) :
    ((controlStep h c q).2.1).history.length ≤ 100 := by
  unfold controlStep
  split_ifs <;>
    simp_all [submitLine_history, pushHistory_length_le]
  split_ifs <;> simp_all [pushHistory_length_le]

theorem get_event_history_le (h : RawInputHandler) (q : List Char)
    (hle : h.history.length ≤ 100) :
    ((get_event h q).2.1).history.length ≤ 100 := by
  unfold get_event
  split_ifs
  · exact hle
  · simpa using hle
  · rcases q with _ | ⟨c, rest⟩
    · exact hle
    · exact controlStep_history_le h c rest hle

end RawInputHandler

namespace RawInputHandler

@[simp]
theorem popEvent_queue (h : RawInputHandler) (q : List Char) :
    (popEvent h q).2.2 = q := by
  unfold popEvent
  split <;> rfl

@[simp]
theorem popEvent_input_buffer (h : RawInputHandler) (q : List Char) :
    ((popEvent h q).2.1).input_buffer = h.input_buffer := by
  unfold popEvent
  split <;> rfl

@[simp]
theorem popEvent_cursor_pos (h : RawInputHandler) (q : List Char) :
    ((popEvent h q).2.1).cursor_pos = h.cursor_pos := by
  unfold popEvent
  split <;> rfl

@[simp]
theorem popEvent_history_index (h : RawInputHandler) (q : List Char) :
    ((popEvent h q).2.1).history_index = h.history_index := by
  unfold popEvent
  split <;> rfl

@[simp]
theorem popEvent_escape_buffer (h : RawInputHandler) (q : List Char) :
    ((popEvent h q).2.1).escape_buffer = h.escape_buffer := by
  unfold popEvent
  split <;> rfl

@[simp]
theorem popEvent_enabled (h : RawInputHandler) (q : List Char) :
    ((popEvent h q).2.1).enabled = h.enabled := by
  unfold popEvent
  split <;> rfl

@[simp]
theorem popEvent_old_settings (h : RawInputHandler) (q : List Char) :
    ((popEvent h q).2.1).old_settings = h.old_settings := by
  unfold popEvent
  split <;> rfl

/-- A byte with code 13 or 10 read with no pending escape routes to the
Enter branch. -/
theorem get_event_submit (h : RawInputHandler) (c : Char) (q : List Char)
    (he : h.enabled = true) (ho : h.old_settings = true)
    (heb : h.escape_buffer = []) (hc : c.toNat = 13 ∨ c.toNat = 10) :
    get_event h (c :: q) = popEvent (submitLine h) q := by
  unfold get_event
  rw [if_neg (by simp [he, ho]), if_neg (by simp [heb])]
  show controlStep h c q = _
  unfold controlStep
  rw [if_neg (by omega), if_neg (by omega), if_pos hc]

/-- A printable byte (code at least 32, not DEL) read with no pending escape
routes to the printable-byte policy. -/
theorem get_event_printable (h : RawInputHandler) (c : Char) (q : List Char)
    (he : h.enabled = true) (ho : h.old_settings = true)
    (heb : h.escape_buffer = []) (h32 : 32 ≤ c.toNat) (h127 : c.toNat ≠ 127) :
    get_event h (c :: q) = printableStep h c q := by
  unfold get_event
  rw [if_neg (by simp [he, ho]), if_neg (by simp [heb])]
  show controlStep h c q = _
  unfold controlStep
  rw [if_neg (by omega), if_neg (by omega), if_neg (by omega), if_neg (by omega),
      if_neg (by omega), if_pos h32]

end RawInputHandler

/-- C8: every input-handler operation preserves the history invariant: the
submitted-line history holds at most 100 entries (preserved by arbitrary
`get_event` calls); a non-empty submission resets the history-navigation
index to present (`-1`) and updates the history by `pushHistory`, which does
not push a duplicate of the most recent entry, evicts the oldest entry when
at the 100-entry cap, and appends otherwise. -/
theorem C8_history_invariant :
    (∀ (h : RawInputHandler) (q : List Char),
        h.history.length ≤ 100 →
        ((RawInputHandler.get_event h q).2.1).history.length ≤ 100) ∧
    (∀ (h : RawInputHandler) (c : Char),
        h.enabled = true → h.old_settings = true → h.escape_buffer = [] →
        (c.toNat = 13 ∨ c.toNat = 10) → pyStrip h.input_buffer ≠ [] →
        (RawInputHandler.get_event h [c]).2.1.history_index = -1 ∧
        (RawInputHandler.get_event h [c]).2.1.history =
          RawInputHandler.pushHistory h.history (pyStrip h.input_buffer)) ∧
    (∀ (hist : List (List Char)) (t : List Char),
        (hist.getLast? = some t → RawInputHandler.pushHistory hist t = hist) ∧
        (hist.getLast? ≠ some t → hist.length = 100 →
          RawInputHandler.pushHistory hist t = hist.drop 1 ++ [t]) ∧
        (hist.getLast? ≠ some t → hist.length < 100 →
          RawInputHandler.pushHistory hist t = hist ++ [t])) := by
  refine ⟨fun h q hle => RawInputHandler.get_event_history_le h q hle, ?_, ?_⟩
  · intro h c he ho heb hc hne
    rw [RawInputHandler.get_event_submit h c [] he ho heb hc]
    constructor
    · rw [RawInputHandler.popEvent_history_index]
      exact RawInputHandler.submitLine_history_index h hne
    · rw [RawInputHandler.popEvent_history, RawInputHandler.submitLine_history,
        if_neg hne]
  · intro hist t
    refine ⟨?_, ?_, ?_⟩
    · intro hlast
      unfold RawInputHandler.pushHistory
      rw [if_neg]
      rintro (h1 | h2)
      · subst h1
        simp at hlast
      · exact h2 hlast
    · intro hlast hlen
      unfold RawInputHandler.pushHistory
      rw [if_pos (Or.inr hlast), if_pos (by simp [hlen])]
      rcases hist with _ | ⟨a, tl⟩
      · simp at hlen
      · simp
    · intro hlast hlen
      unfold RawInputHandler.pushHistory
      rw [if_pos (Or.inr hlast),
        if_neg (by simp only [List.length_append, List.length_singleton]; omega)]

/-- A handler about to submit the line `hi`. -/
def hC8 : RawInputHandler :=
  { input_buffer := ['h', 'i'], enabled := true, old_settings := true }

/-- Witness for C8: the cap and the submission behaviour at a concrete
handler. -/
theorem C8_history_invariant_witness :
    ((RawInputHandler.get_event hC8 ['a']).2.1).history.length ≤ 100 ∧
    (RawInputHandler.get_event hC8 ['\r']).2.1.history_index = -1 ∧
    (RawInputHandler.get_event hC8 ['\r']).2.1.history =
      RawInputHandler.pushHistory hC8.history (pyStrip hC8.input_buffer) :=
  ⟨C8_history_invariant.1 hC8 ['a'] (by decide),
   (C8_history_invariant.2.1 hC8 '\r' rfl rfl rfl (Or.inl (by decide)) (by decide)).1,
   (C8_history_invariant.2.1 hC8 '\r' rfl rfl rfl (Or.inl (by decide)) (by decide)).2⟩

/-- C10: pressing Enter when the trimmed buffer is an exit command
(case-insensitively one of `exit`, `quit`, `/exit`, `/quit`) produces an
`EXIT` event rather than a `TEXT` event, while the line is still pushed to
the submission history (by the usual push, i.e. unless it duplicates the
most recent entry) and the buffer is cleared. -/
theorem C10_exit_command_submission (h : RawInputHandler) (c : Char)
    (he : h.enabled = true) (ho : h.old_settings = true)
    (heb : h.escape_buffer = []) (hev : h.events = [])
    (hc : c.toNat = 13 ∨ c.toNat = 10)
    (hne : pyStrip h.input_buffer ≠ [])
    (hexit : pyLower (pyStrip h.input_buffer) ∈ EXIT_COMMANDS) :
    (RawInputHandler.get_event h [c]).1 = some { type := InputEventType.EXIT } ∧
    (RawInputHandler.get_event h [c]).2.1.input_buffer = [] ∧
    (RawInputHandler.get_event h [c]).2.1.cursor_pos = 0 ∧
    (RawInputHandler.get_event h [c]).2.1.history =
      RawInputHandler.pushHistory h.history (pyStrip h.input_buffer) ∧
    (RawInputHandler.get_event h [c]).2.1.history_index = -1 := by
  rw [RawInputHandler.get_event_submit h c [] he ho heb hc]
  unfold RawInputHandler.submitLine
  rw [if_pos hne, if_pos hexit]
  unfold RawInputHandler.popEvent
  simp [hev]

/-- A handler whose buffer holds an upper-case exit command with padding. -/
def hC10 : RawInputHandler :=
  { input_buffer := [' ', 'E', 'X', 'I', 'T', ' '], enabled := true, old_settings := true }

/-- Witness for C10: submitting ` EXIT ` yields an `EXIT` event, clears the
buffer, and pushes the stripped line to history. -/
theorem C10_exit_command_submission_witness :
    (RawInputHandler.get_event hC10 ['\x0a']).1 = some { type := InputEventType.EXIT } ∧
    (RawInputHandler.get_event hC10 ['\x0a']).2.1.input_buffer = [] ∧
    (RawInputHandler.get_event hC10 ['\x0a']).2.1.cursor_pos = 0 ∧
    (RawInputHandler.get_event hC10 ['\x0a']).2.1.history =
      RawInputHandler.pushHistory hC10.history (pyStrip hC10.input_buffer) ∧
    (RawInputHandler.get_event hC10 ['\x0a']).2.1.history_index = -1 :=
  C10_exit_command_submission hC10 '\x0a' rfl rfl rfl rfl (Or.inr (by decide))
    (by decide) (by decide)

/-- A handler with the buffer `ab`, cursor at the end, and the
just-resolved-escape flag set (as after an unrecognized or incomplete escape
sequence was resolved), with no escape pending. -/
def c6h : RawInputHandler :=
  { input_buffer := ['a', 'b'], cursor_pos := 2, enabled := true,
    old_settings := true, last_was_escape := true }

/-- C6 counterexample: a `C` byte read with no escape pending but right
after a just-resolved escape is not inserted into the buffer as the claim
states — it is silently dropped and no event is produced. -/
theorem C6_counterexample :
    (RawInputHandler.get_event c6h ['C']).1 = none ∧
    (RawInputHandler.get_event c6h ['C']).2.1.input_buffer = ['a', 'b'] ∧
    (RawInputHandler.get_event c6h ['C']).2.1.cursor_pos = 2 := by
  decide

/-- C6 (amended): with no escape pending, immediately after a just-resolved
(possibly invalid) escape sequence, already-emitted events are never
retroactively reinterpreted, and the next byte is handled per that byte:
an `A` or `B` byte is inserted at the cursor as an ordinary printable
character; a `C` or `D` byte is silently dropped (clearing the
just-resolved flag); a lone `[` byte is silently dropped; a `[` byte
followed by an available arrow letter is dropped together with that letter;
and a `[` byte followed by another available printable non-arrow byte is
inserted while that following byte is consumed without being inserted. -/
theorem C6_post_escape_byte_policy (h : RawInputHandler) (x : Char)
    (he : h.enabled = true) (ho : h.old_settings = true)
    (heb : h.escape_buffer = []) (hev : h.events = [])
    (hlwe : h.last_was_escape = true)
    (hlen : h.input_buffer.length < MAX_INPUT_LENGTH)
    (hx32 : 32 ≤ x.toNat)
    (hxarrow : x ≠ 'A' ∧ x ≠ 'B' ∧ x ≠ 'C' ∧ x ≠ 'D') :
    (RawInputHandler.get_event h ['A'] =
      (some { type := InputEventType.CHAR, char := ['A'] },
       { h with
         input_buffer := h.input_buffer.take h.cursor_pos ++
           'A' :: h.input_buffer.drop h.cursor_pos,
         cursor_pos := h.cursor_pos + 1, events := [] }, [])) ∧
    (RawInputHandler.get_event h ['B'] =
      (some { type := InputEventType.CHAR, char := ['B'] },
       { h with
         input_buffer := h.input_buffer.take h.cursor_pos ++
           'B' :: h.input_buffer.drop h.cursor_pos,
         cursor_pos := h.cursor_pos + 1, events := [] }, [])) ∧
    (RawInputHandler.get_event h ['C'] =
      (none, { h with last_was_escape := false }, [])) ∧
    (RawInputHandler.get_event h ['D'] =
      (none, { h with last_was_escape := false }, [])) ∧
    (RawInputHandler.get_event h ['['] = (none, h, [])) ∧
    (RawInputHandler.get_event h ['[', 'C'] = (none, h, [])) ∧
    (RawInputHandler.get_event h ['[', x] =
      (some { type := InputEventType.CHAR, char := ['['] },
       { h with
         input_buffer := h.input_buffer.take h.cursor_pos ++
           '[' :: h.input_buffer.drop h.cursor_pos,
         cursor_pos := h.cursor_pos + 1, events := [] }, [])) := by
  have hnotle : ¬ MAX_INPUT_LENGTH ≤ h.input_buffer.length := not_le.mpr hlen
  have hxne : ¬ (x = 'A' ∨ x = 'B' ∨ x = 'C' ∨ x = 'D') := by
    rintro (h1 | h1 | h1 | h1)
    exacts [hxarrow.1 h1, hxarrow.2.1 h1, hxarrow.2.2.1 h1, hxarrow.2.2.2 h1]
  refine ⟨?_, ?_, ?_, ?_, ?_, ?_, ?_⟩
  · rw [RawInputHandler.get_event_printable h 'A' [] he ho heb (by decide) (by decide)]
    unfold RawInputHandler.printableStep
    rw [if_neg (by decide), if_neg (by rintro ⟨h1 | h1, _⟩ <;> exact absurd h1 (by decide))]
    unfold RawInputHandler.insertPrintable
    rw [if_neg hnotle]
    unfold RawInputHandler.popEvent
    simp [hev]
  · rw [RawInputHandler.get_event_printable h 'B' [] he ho heb (by decide) (by decide)]
    unfold RawInputHandler.printableStep
    rw [if_neg (by decide), if_neg (by rintro ⟨h1 | h1, _⟩ <;> exact absurd h1 (by decide))]
    unfold RawInputHandler.insertPrintable
    rw [if_neg hnotle]
    unfold RawInputHandler.popEvent
    simp [hev]
  · rw [RawInputHandler.get_event_printable h 'C' [] he ho heb (by decide) (by decide)]
    unfold RawInputHandler.printableStep
    rw [if_neg (by decide), if_pos ⟨Or.inl rfl, Or.inr hlwe⟩]
    unfold RawInputHandler.popEvent
    simp [hev]
  · rw [RawInputHandler.get_event_printable h 'D' [] he ho heb (by decide) (by decide)]
    unfold RawInputHandler.printableStep
    rw [if_neg (by decide), if_pos ⟨Or.inr rfl, Or.inr hlwe⟩]
    unfold RawInputHandler.popEvent
    simp [hev]
  · rw [RawInputHandler.get_event_printable h '[' [] he ho heb (by decide) (by decide)]
    unfold RawInputHandler.printableStep
    rw [if_pos rfl]
    unfold RawInputHandler.popEvent
    simp [hev]
  · rw [RawInputHandler.get_event_printable h '[' ['C'] he ho heb (by decide) (by decide)]
    unfold RawInputHandler.printableStep
    rw [if_pos rfl]
    show (if 'C' = 'A' ∨ 'C' = 'B' ∨ 'C' = 'C' ∨ 'C' = 'D' then _ else _) = _
    rw [if_pos (by decide)]
    unfold RawInputHandler.popEvent
    simp [hev]
  · rw [RawInputHandler.get_event_printable h '[' [x] he ho heb (by decide) (by decide)]
    unfold RawInputHandler.printableStep
    rw [if_pos rfl]
    show (if x = 'A' ∨ x = 'B' ∨ x = 'C' ∨ x = 'D' then _ else _) = _
    rw [if_neg hxne, if_pos hx32]
    unfold RawInputHandler.insertPrintable
    rw [if_neg hnotle]
    unfold RawInputHandler.popEvent
    simp [hev]

/-- A handler with the buffer `z`, cursor at the end, and the just-resolved
escape flag set. -/
def c6w : RawInputHandler :=
  { input_buffer := ['z'], cursor_pos := 1, enabled := true,
    old_settings := true, last_was_escape := true }

/-- Witness for C6: the amended policy evaluated on a concrete handler. -/
theorem C6_post_escape_byte_policy_witness :
    RawInputHandler.get_event c6w ['C'] =
      (none, { c6w with last_was_escape := false }, []) :=
  (C6_post_escape_byte_policy c6w 'x' rfl rfl rfl rfl rfl (by decide) (by decide)
    ⟨by decide, by decide, by decide, by decide⟩).2.2.1

namespace RawInputHandler

/-- Whether an arrow key byte has an observable effect in handler state `h`
(per the branches of `handleArrow`; down always re-renders, so it always
emits). -/
def arrowEmits (h : RawInputHandler) (k : Char) : Bool :=
  if k = 'C' then decide (h.cursor_pos < h.input_buffer.length)
  else if k = 'D' then decide (0 < h.cursor_pos)
  else if k = 'A' then decide (h.history ≠ [])
  else if k = 'B' then true
  else false

theorem handleArrow_A (h : RawInputHandler) :
    handleArrow h 'A' =
      if h.history ≠ [] then
        { h with
          history_index := max (-(h.history.length : Int)) (h.history_index - 1),
          input_buffer := negGet h.history (max (-(h.history.length : Int)) (h.history_index - 1)),
          cursor_pos := (negGet h.history (max (-(h.history.length : Int)) (h.history_index - 1))).length,
          events := h.events ++ [{ type := .CHAR }] }
      else h := by
  unfold handleArrow
  rw [if_neg (by decide), if_neg (by decide), if_pos rfl]

theorem handleArrow_B (h : RawInputHandler) :
    handleArrow h 'B' =
      if h.history_index < -1 then
        { h with
          history_index := h.history_index + 1,
          input_buffer := negGet h.history (h.history_index + 1),
          cursor_pos := (negGet h.history (h.history_index + 1)).length,
          events := h.events ++ [{ type := .CHAR }] }
      else
        { h with input_buffer := [], cursor_pos := 0, history_index := -1,
                 events := h.events ++ [{ type := .CHAR }] } := by
  unfold handleArrow
  rw [if_neg (by decide), if_neg (by decide), if_neg (by decide), if_pos rfl]

theorem handleArrow_C (h : RawInputHandler) :
    handleArrow h 'C' =
      if h.cursor_pos < h.input_buffer.length then
        { h with cursor_pos := h.cursor_pos + 1, events := h.events ++ [{ type := .CHAR }] }
      else h := by
  unfold handleArrow
  rw [if_pos rfl]

theorem handleArrow_D (h : RawInputHandler) :
    handleArrow h 'D' =
      if 0 < h.cursor_pos then
        { h with cursor_pos := h.cursor_pos - 1, events := h.events ++ [{ type := .CHAR }] }
      else h := by
  unfold handleArrow
  rw [if_neg (by decide), if_pos rfl]

theorem arrowEmits_A (h : RawInputHandler) :
    arrowEmits h 'A' = decide (h.history ≠ []) := by
  unfold arrowEmits
  rw [if_neg (by decide), if_neg (by decide), if_pos rfl]

theorem arrowEmits_B (h : RawInputHandler) : arrowEmits h 'B' = true := by
  unfold arrowEmits
  rw [if_neg (by decide), if_neg (by decide), if_neg (by decide), if_pos rfl]

theorem arrowEmits_C (h : RawInputHandler) :
    arrowEmits h 'C' = decide (h.cursor_pos < h.input_buffer.length) := by
  unfold arrowEmits
  rw [if_pos rfl]

theorem arrowEmits_D (h : RawInputHandler) :
    arrowEmits h 'D' = decide (0 < h.cursor_pos) := by
  unfold arrowEmits
  rw [if_neg (by decide), if_pos rfl]

/-- Updating only the escape bookkeeping fields commutes with the arrow
dispatch. -/
theorem handleArrow_update (h : RawInputHandler) (x : List Char) (y : Bool) (k : Char) :
    handleArrow { h with escape_buffer := x, last_was_escape := y } k =
      { handleArrow h k with escape_buffer := x, last_was_escape := y } := by
  unfold handleArrow
  dsimp only
  split_ifs <;> rfl

/-- Updating only the escape bookkeeping fields does not change whether the
arrow emits. -/
theorem arrowEmits_update (h : RawInputHandler) (x : List Char) (y : Bool) (k : Char) :
    arrowEmits { h with escape_buffer := x, last_was_escape := y } k = arrowEmits h k :=
  rfl

@[simp]
theorem handleArrow_enabled (h : RawInputHandler) (k : Char) :
    (handleArrow h k).enabled = h.enabled := by
  unfold handleArrow
  split_ifs <;> rfl

@[simp]
theorem handleArrow_old_settings (h : RawInputHandler) (k : Char) :
    (handleArrow h k).old_settings = h.old_settings := by
  unfold handleArrow
  split_ifs <;> rfl

@[simp]
theorem handleArrow_escape_buffer (h : RawInputHandler) (k : Char) :
    (handleArrow h k).escape_buffer = h.escape_buffer := by
  unfold handleArrow
  split_ifs <;> rfl

@[simp]
theorem handleArrow_last_was_escape (h : RawInputHandler) (k : Char) :
    (handleArrow h k).last_was_escape = h.last_was_escape := by
  unfold handleArrow
  split_ifs <;> rfl

/-- Popping the event queue right after an arrow dispatch on an empty event
queue yields the emitted event, if any. -/
theorem events_nil_eta (h : RawInputHandler) (hev : h.events = []) :
    ({ h with events := [] } : RawInputHandler) = h := by
  cases h
  simp_all

theorem popEvent_handleArrow (h : RawInputHandler) (k : Char) (q : List Char)
    (hev : h.events = []) (hk : k = 'A' ∨ k = 'B' ∨ k = 'C' ∨ k = 'D') :
    popEvent (handleArrow h k) q =
      ((if arrowEmits h k then some { type := InputEventType.CHAR } else none),
       { handleArrow h k with events := [] }, q) := by
  rcases hk with rfl | rfl | rfl | rfl
  · rw [handleArrow_A, arrowEmits_A]
    simp only [decide_eq_true_eq]
    split_ifs with h1
    · simp [popEvent, hev]
    · simp [popEvent, hev, events_nil_eta h hev]
  · rw [handleArrow_B, arrowEmits_B]
    simp only []
    split_ifs with h1 <;> simp [popEvent, hev]
  · rw [handleArrow_C, arrowEmits_C]
    simp only [decide_eq_true_eq]
    split_ifs with h1
    · simp [popEvent, hev]
    · simp [popEvent, hev, events_nil_eta h hev]
  · rw [handleArrow_D, arrowEmits_D]
    simp only [decide_eq_true_eq]
    split_ifs with h1
    · simp [popEvent, hev]
    · simp [popEvent, hev, events_nil_eta h hev]

end RawInputHandler

namespace RawInputHandler

/-- `get_event` on a handler with no bytes available is a no-op. -/
theorem get_event_nil (h : RawInputHandler)
    (he : h.enabled = true) (ho : h.old_settings = true) :
    get_event h [] = (none, h, []) := by
  unfold get_event
  rw [if_neg (by simp [he, ho])]
  split_ifs
  · rfl
  · rfl

/-- With no pending escape and only `ESC` available, the byte is buffered. -/
theorem get_event_esc1 (h : RawInputHandler)
    (he : h.enabled = true) (ho : h.old_settings = true)
    (heb : h.escape_buffer = []) (hev : h.events = []) :
    get_event h ['\x1b'] =
      (none, { h with escape_buffer := ['\x1b'], last_was_escape := true }, []) := by
  unfold get_event
  rw [if_neg (by simp [he, ho]), if_neg (by simp [heb])]
  show controlStep h '\x1b' [] = _
  unfold controlStep
  rw [if_neg (by decide), if_neg (by decide), if_neg (by decide), if_neg (by decide),
      if_pos (by decide)]
  simp [escStep, popEvent, hev]

/-- With no pending escape and `ESC [` available, both bytes are buffered. -/
theorem get_event_esc2 (h : RawInputHandler)
    (he : h.enabled = true) (ho : h.old_settings = true)
    (heb : h.escape_buffer = []) (hev : h.events = []) :
    get_event h ['\x1b', '['] =
      (none, { h with escape_buffer := ['\x1b', '['], last_was_escape := true }, []) := by
  unfold get_event
  rw [if_neg (by simp [he, ho]), if_neg (by simp [heb])]
  show controlStep h '\x1b' ['['] = _
  unfold controlStep
  rw [if_neg (by decide), if_neg (by decide), if_neg (by decide), if_neg (by decide),
      if_pos (by decide)]
  simp [escStep, popEvent, hev]

/-- With no pending escape and a complete arrow sequence available, the
arrow is dispatched in one call. -/
theorem get_event_esc3 (h : RawInputHandler) (k : Char)
    (he : h.enabled = true) (ho : h.old_settings = true)
    (heb : h.escape_buffer = []) (hev : h.events = [])
    (hk : k = 'A' ∨ k = 'B' ∨ k = 'C' ∨ k = 'D') :
    get_event h ['\x1b', '[', k] =
      ((if arrowEmits h k then some { type := InputEventType.CHAR } else none),
       { handleArrow h k with events := [] }, []) := by
  unfold get_event
  rw [if_neg (by simp [he, ho]), if_neg (by simp [heb])]
  show controlStep h '\x1b' ['[', k] = _
  unfold controlStep
  rw [if_neg (by decide), if_neg (by decide), if_neg (by decide), if_neg (by decide),
      if_pos (by decide)]
  show escStep h ['[', k] = _
  simp only [escStep, if_pos]
  rw [if_pos hk]
  exact popEvent_handleArrow h k [] hev hk

/-- With `ESC` pending, one available byte is appended to the escape
buffer and the call returns nothing. -/
theorem get_event_buf1 (h : RawInputHandler) (c : Char) (rest : List Char)
    (he : h.enabled = true) (ho : h.old_settings = true)
    (heb : h.escape_buffer = ['\x1b']) :
    get_event h (c :: rest) =
      (none, { h with escape_buffer := ['\x1b', c] }, rest) := by
  unfold get_event
  rw [if_neg (by simp [he, ho]), if_pos (by simp [heb])]
  show bufferStep h (c :: rest) = _
  simp only [bufferStep, heb]
  rw [if_neg (by simp)]
  simp
/-- With `ESC [` pending and an arrow letter available, the sequence
completes and the arrow is dispatched, clearing the escape state. -/
theorem get_event_buf2 (h : RawInputHandler) (k : Char) (rest : List Char)
    (he : h.enabled = true) (ho : h.old_settings = true)
    (heb : h.escape_buffer = ['\x1b', '[']) (hev : h.events = [])
    (hk : k = 'A' ∨ k = 'B' ∨ k = 'C' ∨ k = 'D') :
    get_event h (k :: rest) =
      ((if arrowEmits h k then some { type := InputEventType.CHAR } else none),
       { handleArrow h k with events := [], escape_buffer := [], last_was_escape := false },
       rest) := by
  unfold get_event
  rw [if_neg (by simp [he, ho]), if_pos (by simp [heb])]
  show bufferStep h (k :: rest) = _
  simp only [bufferStep, heb]
  rw [if_pos (by simp)]
  simp only [List.cons_append, List.nil_append, List.get?]
  rw [if_pos ⟨trivial, hk⟩]
  have hupd : handleArrow { h with escape_buffer := ([] : List Char) } k =
      { handleArrow h k with escape_buffer := [], last_was_escape := h.last_was_escape } :=
    handleArrow_update h [] h.last_was_escape k
  rw [hupd]
  dsimp only
  rcases hk with rfl | rfl | rfl | rfl
  · rw [handleArrow_A, arrowEmits_A]
    simp only [decide_eq_true_eq]
    split_ifs with h1 <;> simp [popEvent, hev]
  · rw [handleArrow_B, arrowEmits_B]
    split_ifs <;> simp_all [popEvent]
  · rw [handleArrow_C, arrowEmits_C]
    simp only [decide_eq_true_eq]
    split_ifs with h1 <;> simp [popEvent, hev]
  · rw [handleArrow_D, arrowEmits_D]
    simp only [decide_eq_true_eq]
    split_ifs with h1 <;> simp [popEvent, hev]

end RawInputHandler

namespace RawInputHandler

/-- Drive `get_event` over successive polls: before the i-th call, the i-th
chunk of newly arrived bytes is appended to the unread queue.  Returns the
events produced (in order), the final handler state, and the unread bytes. -/
def pollChunks (h : RawInputHandler) (q : List Char) :
    List (List Char) → List InputEvent × RawInputHandler × List Char
  | [] => ([], h, q)
  | c :: cs =>
    ((get_event h (q ++ c)).1.toList ++
      (pollChunks (get_event h (q ++ c)).2.1 (get_event h (q ++ c)).2.2 cs).1,
     (pollChunks (get_event h (q ++ c)).2.1 (get_event h (q ++ c)).2.2 cs).2)

theorem pollChunks_cons (h : RawInputHandler) (q c : List Char)
    (cs : List (List Char)) :
    pollChunks h q (c :: cs) =
      ((get_event h (q ++ c)).1.toList ++
        (pollChunks (get_event h (q ++ c)).2.1 (get_event h (q ++ c)).2.2 cs).1,
       (pollChunks (get_event h (q ++ c)).2.1 (get_event h (q ++ c)).2.2 cs).2) :=
  rfl

/-- Polls during which no byte is available change nothing. -/
theorem pollChunks_no_data (h : RawInputHandler) (cs : List (List Char))
    (he : h.enabled = true) (ho : h.old_settings = true)
    (hnil : ∀ d ∈ cs, d = []) :
    pollChunks h [] cs = ([], h, []) := by
  induction cs with
  | nil => rfl
  | cons c cs ih =>
    have hc : c = [] := hnil c (by simp)
    subst hc
    rw [pollChunks_cons]
    simp only [List.nil_append, get_event_nil h he ho]
    simp [ih (fun d hd => hnil d (List.mem_cons_of_mem _ hd))]

/-- The three bytes of an arrow-key escape sequence. -/
def arrowBytes (k : Char) : List Char := ['\x1b', '[', k]

theorem mem_pad_eq_nil (d : List Char) (hd : d ∈ ([[], [], []] : List (List Char))) :
    d = [] := by
  simp only [List.mem_cons, List.not_mem_nil, or_false] at hd
  rcases hd with h | h | h <;> exact h

end RawInputHandler

namespace RawInputHandler

theorem mem_pad1_eq_nil (d : List Char) (hd : d ∈ ([[]] : List (List Char))) :
    d = [] := by
  simpa using hd

theorem mem_pad2_eq_nil (d : List Char) (hd : d ∈ ([[], []] : List (List Char))) :
    d = [] := by
  rcases List.mem_cons.mp hd with h | h
  · exact h
  · simpa using h

theorem mem_append_pad_eq_nil (cs : List (List Char)) (hflat : cs.flatten = [])
    (d : List Char) (hd : d ∈ cs ++ ([[], [], []] : List (List Char))) : d = [] := by
  rcases List.mem_append.mp hd with h1 | h1
  · exact List.flatten_eq_nil_iff.mp hflat d h1
  · exact mem_pad_eq_nil d h1

/-- Conclusions of the delivery lemma stated for a handler whose escape
bookkeeping fields were updated transfer to the underlying handler. -/
theorem pollChunks_arrow_bridge (h : RawInputHandler) (x : List Char) (y : Bool) (k : Char)
    (r : List InputEvent × RawInputHandler × List Char)
    (hcon :
      r.1 = (if arrowEmits { h with escape_buffer := x, last_was_escape := y } k then
          [{ type := InputEventType.CHAR }] else []) ∧
      r.2.2 = [] ∧ r.2.1.events = [] ∧ r.2.1.escape_buffer = [] ∧
      r.2.1.input_buffer =
        (handleArrow { h with escape_buffer := x, last_was_escape := y } k).input_buffer ∧
      r.2.1.cursor_pos =
        (handleArrow { h with escape_buffer := x, last_was_escape := y } k).cursor_pos ∧
      r.2.1.history =
        ({ h with escape_buffer := x, last_was_escape := y } : RawInputHandler).history ∧
      r.2.1.history_index =
        (handleArrow { h with escape_buffer := x, last_was_escape := y } k).history_index) :
    r.1 = (if arrowEmits h k then [{ type := InputEventType.CHAR }] else []) ∧
    r.2.2 = [] ∧ r.2.1.events = [] ∧ r.2.1.escape_buffer = [] ∧
    r.2.1.input_buffer = (handleArrow h k).input_buffer ∧
    r.2.1.cursor_pos = (handleArrow h k).cursor_pos ∧
    r.2.1.history = h.history ∧
    r.2.1.history_index = (handleArrow h k).history_index := by
  rw [arrowEmits_update h x y k, handleArrow_update h x y k] at hcon
  exact hcon

/-- Delivering the bytes of an arrow-key escape sequence across any number
of polls.  Starting from a handler whose pending escape buffer holds the
first `n` bytes of the sequence, with the remaining bytes arriving through
the current queue `q` and the chunk list `cs`, three further empty polls
always suffice to resolve the sequence: the polls produce the arrow event
exactly when the arrow has an effect, produce nothing else, and leave the
handler as after `handleArrow` with an empty escape state and empty queue. -/
theorem pollChunks_arrow_aux (k : Char)
    (hk : k = 'A' ∨ k = 'B' ∨ k = 'C' ∨ k = 'D') :
    ∀ (cs : List (List Char)) (h : RawInputHandler) (q : List Char) (n : Nat),
      h.enabled = true → h.old_settings = true → h.events = [] → n ≤ 2 →
      h.escape_buffer = (arrowBytes k).take n →
      q ++ cs.flatten = (arrowBytes k).drop n →
      (pollChunks h q (cs ++ [[], [], []])).1 =
          (if arrowEmits h k then [{ type := InputEventType.CHAR }] else []) ∧
      (pollChunks h q (cs ++ [[], [], []])).2.2 = [] ∧
      (pollChunks h q (cs ++ [[], [], []])).2.1.events = [] ∧
      (pollChunks h q (cs ++ [[], [], []])).2.1.escape_buffer = [] ∧
      (pollChunks h q (cs ++ [[], [], []])).2.1.input_buffer =
          (handleArrow h k).input_buffer ∧
      (pollChunks h q (cs ++ [[], [], []])).2.1.cursor_pos =
          (handleArrow h k).cursor_pos ∧
      (pollChunks h q (cs ++ [[], [], []])).2.1.history = h.history ∧
      (pollChunks h q (cs ++ [[], [], []])).2.1.history_index =
          (handleArrow h k).history_index := by
  intro cs
  induction cs with
  | nil =>
    intro h q n he ho hev hn heb hq
    simp only [List.flatten_nil, List.append_nil] at hq
    interval_cases n
    · have heb0 : h.escape_buffer = [] := heb
      have hq0 : q = ['\x1b', '[', k] := hq
      subst hq0
      rw [List.nil_append, pollChunks_cons, List.append_nil,
        get_event_esc3 h k he ho heb0 hev hk]
      dsimp only
      rw [pollChunks_no_data _ _ (by simp [he]) (by simp [ho]) mem_pad2_eq_nil]
      refine ⟨?_, rfl, rfl, ?_, rfl, rfl, ?_, rfl⟩
      · split_ifs <;> simp
      · simp [heb0]
      · simp
    · have heb1 : h.escape_buffer = ['\x1b'] := heb
      have hq1 : q = ['[', k] := hq
      subst hq1
      rw [List.nil_append, pollChunks_cons, List.append_nil,
        get_event_buf1 h '[' [k] he ho heb1]
      dsimp only
      rw [pollChunks_cons, List.append_nil,
        get_event_buf2 { h with escape_buffer := ['\x1b', '['] } k [] he ho rfl hev hk]
      dsimp only
      rw [pollChunks_no_data _ _ (by simp [he]) (by simp [ho]) mem_pad1_eq_nil]
      rw [handleArrow_update h ['\x1b', '['] h.last_was_escape k,
        arrowEmits_update h ['\x1b', '['] h.last_was_escape k]
      refine ⟨?_, rfl, rfl, rfl, rfl, rfl, ?_, rfl⟩
      · split_ifs <;> simp
      · simp
    · have heb2 : h.escape_buffer = ['\x1b', '['] := heb
      have hq2 : q = [k] := hq
      subst hq2
      rw [List.nil_append, pollChunks_cons, List.append_nil,
        get_event_buf2 h k [] he ho heb2 hev hk]
      dsimp only
      rw [pollChunks_no_data _ _ (by simp [he]) (by simp [ho]) mem_pad2_eq_nil]
      refine ⟨?_, rfl, rfl, rfl, rfl, rfl, ?_, rfl⟩
      · split_ifs <;> simp
      · simp
  | cons c cs ih =>
    intro h q n he ho hev hn heb hq
    rw [List.flatten_cons, ← List.append_assoc] at hq
    rw [List.cons_append, pollChunks_cons]
    revert hq
    generalize q ++ c = p
    intro hq
    interval_cases n
    · have heb0 : h.escape_buffer = [] := heb
      have hqc : p ++ cs.flatten = ['\x1b', '[', k] := hq
      rcases p with _ | ⟨a1, p⟩
      · rw [get_event_nil h he ho]
        exact ih h [] 0 he ho hev (by omega) heb hqc
      · simp only [List.cons_append, List.cons.injEq] at hqc
        obtain ⟨rfl, hqc⟩ := hqc
        rcases p with _ | ⟨a2, p⟩
        · rw [get_event_esc1 h he ho heb0 hev]
          exact pollChunks_arrow_bridge h ['\x1b'] true k _
            (ih { h with escape_buffer := ['\x1b'], last_was_escape := true } [] 1
              he ho hev (by omega) rfl hqc)
        · simp only [List.cons_append, List.cons.injEq] at hqc
          obtain ⟨rfl, hqc⟩ := hqc
          rcases p with _ | ⟨a3, p⟩
          · rw [get_event_esc2 h he ho heb0 hev]
            exact pollChunks_arrow_bridge h ['\x1b', '['] true k _
              (ih { h with escape_buffer := ['\x1b', '['], last_was_escape := true } [] 2
                he ho hev (by omega) rfl hqc)
          · simp only [List.cons_append, List.cons.injEq] at hqc
            obtain ⟨hax, hqc⟩ := hqc
            rw [hax]
            obtain ⟨rfl, hflat⟩ := List.append_eq_nil.mp hqc
            rw [get_event_esc3 h k he ho heb0 hev hk]
            dsimp only
            rw [pollChunks_no_data _ _ (by simp [he]) (by simp [ho])
              (mem_append_pad_eq_nil cs hflat)]
            refine ⟨?_, rfl, rfl, ?_, rfl, rfl, ?_, rfl⟩
            · split_ifs <;> simp
            · simp [heb0]
            · simp
    · have heb1 : h.escape_buffer = ['\x1b'] := heb
      have hqc : p ++ cs.flatten = ['[', k] := hq
      rcases p with _ | ⟨a1, p⟩
      · rw [get_event_nil h he ho]
        exact ih h [] 1 he ho hev (by omega) heb hqc
      · simp only [List.cons_append, List.cons.injEq] at hqc
        obtain ⟨rfl, hqc⟩ := hqc
        rw [get_event_buf1 h '[' p he ho heb1]
        exact pollChunks_arrow_bridge h ['\x1b', '['] h.last_was_escape k _
          (ih { h with escape_buffer := ['\x1b', '['] } p 2
            he ho hev (by omega) rfl hqc)
    · have heb2 : h.escape_buffer = ['\x1b', '['] := heb
      have hqc : p ++ cs.flatten = [k] := hq
      rcases p with _ | ⟨a1, p⟩
      · rw [get_event_nil h he ho]
        exact ih h [] 2 he ho hev (by omega) heb hqc
      · simp only [List.cons_append, List.cons.injEq] at hqc
        obtain ⟨hax, hqc⟩ := hqc
        rw [hax]
        obtain ⟨rfl, hflat⟩ := List.append_eq_nil.mp hqc
        rw [get_event_buf2 h k [] he ho heb2 hev hk]
        dsimp only
        rw [pollChunks_no_data _ _ (by simp [he]) (by simp [ho])
          (mem_append_pad_eq_nil cs hflat)]
        refine ⟨?_, rfl, rfl, rfl, rfl, rfl, ?_, rfl⟩
        · split_ifs <;> simp
        · simp

end RawInputHandler

/-- C5 (amended): for every way of delivering the bytes of a valid
arrow-key escape sequence (`ESC`, `[`, then one of `A`/`B`/`C`/`D`) across
any number of `get_event` polls — any chunking, including one byte per
poll — no printable-character event is ever produced from those bytes and
at most one `InputEvent` is produced: exactly one (the empty `CHAR`
re-render event) when the arrow key has an effect on the handler state
(right: cursor strictly before the end of the buffer; left: cursor past 0;
up: non-empty history; down: always), and none otherwise.  Afterwards the
handler is left as after the corresponding arrow dispatch with an empty
escape buffer and no unread bytes.  In particular, for `ESC`,`[`,`C` over
three polls with the cursor strictly before the end of the buffer, exactly
one poll returns an event and the cursor moves one position right. -/
theorem C5_arrow_sequence_delivery (h : RawInputHandler) (k : Char)
    (chunks : List (List Char))
    (hk : k = 'A' ∨ k = 'B' ∨ k = 'C' ∨ k = 'D')
    (he : h.enabled = true) (ho : h.old_settings = true)
    (heb : h.escape_buffer = []) (hev : h.events = [])
    (hjoin : chunks.flatten = ['\x1b', '[', k]) :
    (RawInputHandler.pollChunks h [] (chunks ++ [[], [], []])).1 =
        (if RawInputHandler.arrowEmits h k then [{ type := InputEventType.CHAR }] else []) ∧
    (RawInputHandler.pollChunks h [] (chunks ++ [[], [], []])).2.2 = [] ∧
    (RawInputHandler.pollChunks h [] (chunks ++ [[], [], []])).2.1.events = [] ∧
    (RawInputHandler.pollChunks h [] (chunks ++ [[], [], []])).2.1.escape_buffer = [] ∧
    (RawInputHandler.pollChunks h [] (chunks ++ [[], [], []])).2.1.input_buffer =
        (RawInputHandler.handleArrow h k).input_buffer ∧
    (RawInputHandler.pollChunks h [] (chunks ++ [[], [], []])).2.1.cursor_pos =
        (RawInputHandler.handleArrow h k).cursor_pos ∧
    (RawInputHandler.pollChunks h [] (chunks ++ [[], [], []])).2.1.history = h.history ∧
    (RawInputHandler.pollChunks h [] (chunks ++ [[], [], []])).2.1.history_index =
        (RawInputHandler.handleArrow h k).history_index :=
  RawInputHandler.pollChunks_arrow_aux k hk chunks h [] 0 he ho hev (by omega) heb hjoin

/-- A freshly started handler: empty buffer, cursor at 0. -/
def c5h : RawInputHandler :=
  { enabled := true, old_settings := true }

/-- C5 counterexample: delivering `ESC`,`[`,`C` one byte per poll to a
fresh handler (empty buffer, cursor at 0) produces no `InputEvent` at all —
every poll returns `none` and the cursor does not move — contradicting the
claim that exactly one event is produced and that the cursor moves one
position right. -/
theorem C5_counterexample :
    (RawInputHandler.pollChunks c5h [] [['\x1b'], ['['], ['C']]).1 = [] ∧
    (RawInputHandler.pollChunks c5h [] [['\x1b'], ['['], ['C']]).2.1.cursor_pos = 0 ∧
    (RawInputHandler.pollChunks c5h [] [['\x1b'], ['['], ['C']]).2.1.input_buffer = [] := by
  decide

/-- A handler holding `ab` with the cursor at the start. -/
def c5w : RawInputHandler :=
  { input_buffer := ['a', 'b'], cursor_pos := 0, enabled := true, old_settings := true }

/-- Witness for C5: right-arrow delivered one byte per poll to a handler
whose cursor can move right yields exactly the one re-render event and the
moved cursor. -/
theorem C5_arrow_sequence_delivery_witness :
    (RawInputHandler.pollChunks c5w [] ([['\x1b'], ['['], ['C']] ++ [[], [], []])).1 =
        (if RawInputHandler.arrowEmits c5w 'C' then [{ type := InputEventType.CHAR }] else []) ∧
    (RawInputHandler.pollChunks c5w [] ([['\x1b'], ['['], ['C']] ++ [[], [], []])).2.1.cursor_pos =
        (RawInputHandler.handleArrow c5w 'C').cursor_pos :=
  ⟨(C5_arrow_sequence_delivery c5w 'C' [['\x1b'], ['['], ['C']]
      (by decide) rfl rfl rfl rfl (by decide)).1,
   (C5_arrow_sequence_delivery c5w 'C' [['\x1b'], ['['], ['C']]
      (by decide) rfl rfl rfl rfl (by decide)).2.2.2.2.2.1⟩

/-- Message roles in the conversation history (app.py `Message.role`,
`'user'` or `'ai'`). -/
inductive Role
  | user
  | ai
deriving DecidableEq

/-- `Message` from app.py lines 81-86 (the timestamp, used only for
display, is elided). -/
structure Message where
  role : Role
  content : List Char
deriving DecidableEq

/-- `AppConfig` from app.py lines 69-77 (display-only fields elided). -/
structure AppConfig where
  fps : Nat := 15
  max_history : Nat := 50
  stream_text : Bool := true
deriving DecidableEq

/-- `deque(maxlen=...)` append: drop from the left when over capacity
(app.py line 143). -/
def dequeAppend (maxlen : Nat) (l : List Message) (m : Message) : List Message :=
  if maxlen < (l ++ [m]).length then (l ++ [m]).drop ((l ++ [m]).length - maxlen)
  else l ++ [m]

/-- The state of `CLIApp` (app.py lines 104-166) restricted to the fields
the orchestration logic reads or writes.  `asyncio.create_task` calls are
modelled by recording the scheduled work: `pending_input_tasks` holds the
arguments of scheduled `_handle_user_input` coroutines (they run, in
creation order, when the tick loop next yields to the event loop),
`brain_calls` the prompts passed to spawned `_brain_worker` tasks (the
in-flight think calls), and `speak_calls` the texts passed to spawned
`_speak_worker` tasks.  `speaker_stop_calls` counts `self.speaker.stop()`
invocations, and `has_speaker` models `self.speaker` being non-None. -/
structure CLIApp where
  config : AppConfig := {}
  state : StateManager := {}
  input_handler : RawInputHandler := {}
  current_input : List Char := []
  renderer : StreamingRenderer := {}
  has_speaker : Bool := true
  running : Bool := true
  history : List Message := []
  response_queue : List (List Char) := []
  current_response : List Char := []
  show_prompt : Bool := true
  pending_input_tasks : List (List Char) := []
  brain_calls : List (List Char) := []
  speak_calls : List (List Char) := []
  speaker_stop_calls : Nat := 0
deriving DecidableEq

namespace CLIApp

/-- `CLIApp._process_state` (app.py lines 268-290): per-phase input
enabling, and the polled Error timeout — after more than 5 seconds in
Error the state is forced back to IDLE (without a validated transition). -/
def process_state (a : CLIApp) (now : ℚ) : CLIApp :=
  if a.state.state = .IDLE then
    { a with input_handler := a.input_handler.enable, show_prompt := true }
  else if a.state.state = .THINKING then
    { a with input_handler := a.input_handler.disable, show_prompt := false }
  else if a.state.state = .TALKING then
    { a with input_handler := a.input_handler.disable, show_prompt := false }
  else
    if 5 < a.state.duration now then
      { a with input_handler := a.input_handler.enable, show_prompt := false,
               state := a.state.force_state .IDLE }
    else
      { a with input_handler := a.input_handler.enable, show_prompt := false }

/-- One iteration of the event loop body of `CLIApp._process_input`
(app.py lines 299-333), for a single event; the returned flag is false when
the loop breaks (EXIT, or INTERRUPT while idle). -/
def step_event (a : CLIApp) (e : InputEvent) : CLIApp × Bool :=
  if e.type = .EXIT then ({ a with running := false }, false)
  else if e.type = .INTERRUPT then
    if a.state.state ≠ .IDLE then
      let a1 := if a.state.state = .TALKING ∧ a.has_speaker then
          { a with speaker_stop_calls := a.speaker_stop_calls + 1 } else a
      let a2 := { a1 with renderer := a1.renderer.skip }
      let a3 := { a2 with state := (a2.state.force_state .IDLE).set_speaking_text none }
      ({ a3 with input_handler := a3.input_handler.clear_buffer, current_input := [] }, true)
    else ({ a with running := false }, false)
  else if e.type = .TEXT then
    let a1 := { a with input_handler := a.input_handler.clear_buffer }
    if a1.state.state = .ERROR then
      ({ a1 with state := a1.state.force_state .IDLE }, true)
    else
      ({ a1 with pending_input_tasks := a1.pending_input_tasks ++ [e.text] }, true)
  else (a, true)

/-- The event loop of `CLIApp._process_input` (app.py lines 292-334) over
the events the handler yields this tick, capped at 10 per tick. -/
def process_events : CLIApp → List InputEvent → Nat → CLIApp
  | a, [], _ => a
  | a, _, 0 => a
  | a, e :: es, n + 1 =>
    if (step_event a e).2 then process_events (step_event a e).1 es n
    else (step_event a e).1

/-- `CLIApp._process_input` (app.py lines 292-336): drain up to 10 events,
then refresh `current_input` from the handler buffer. -/
def process_input (a : CLIApp) (evs : List InputEvent) : CLIApp :=
  { process_events a evs 10 with
    current_input := (process_events a evs 10).input_handler.input_text }

/-- `CLIApp._handle_user_input` (app.py lines 338-351): append the user
message, attempt the transition to THINKING (result ignored), and spawn a
brain worker for the text unconditionally. -/
def handle_user_input (a : CLIApp) (text : List Char) (now : ℚ) : CLIApp :=
  { a with
    history := dequeAppend a.config.max_history a.history ⟨.user, text⟩,
    state := (a.state.transition_to .THINKING now).2,
    brain_calls := a.brain_calls ++ [text] }

/-- The event loop running the `_handle_user_input` tasks created during
this tick, in creation order (they run when the tick loop next awaits). -/
def run_pending_inputs (a : CLIApp) (now : ℚ) : CLIApp :=
  List.foldl (fun b t => handle_user_input b t now)
    { a with pending_input_tasks := [] } a.pending_input_tasks

/-- The success path of `CLIApp._brain_worker` (app.py lines 353-363): the
think result is put on the response queue. -/
def brain_worker_ok (a : CLIApp) (response : List Char) : CLIApp :=
  { a with response_queue := a.response_queue ++ [response] }

/-- The failure path of `CLIApp._brain_worker` (app.py lines 364-375): the
error is surfaced through `set_error`. -/
def brain_worker_err (a : CLIApp) (message : String) (now : ℚ) : CLIApp :=
  { a with state := (a.state.set_error message now).2 }

/-- `CLIApp._process_responses` (app.py lines 377-398): drain at most one
queued think result; append it to the conversation history, start the
streaming renderer on it (or set `current_response`), attempt the
transition to TALKING (result ignored), and spawn a speak worker for it —
all unconditionally. -/
def process_responses (a : CLIApp) (now : ℚ) : CLIApp :=
  match a.response_queue with
  | [] => a
  | response :: rest =>
    let a1 := { a with response_queue := rest,
                       history := dequeAppend a.config.max_history a.history ⟨.ai, response⟩ }
    let a2 :=
      if a1.config.stream_text then { a1 with renderer := a1.renderer.start_stream response }
      else { a1 with current_response := response }
    let a3 := { a2 with state := (a2.state.transition_to .TALKING now).2 }
    { a3 with speak_calls := a3.speak_calls ++ [response] }

/-- One iteration of `CLIApp._run_main_loop` (app.py lines 240-263), with
the input events the handler yields this tick passed explicitly: process
state, process input, process responses, then (at the `asyncio.sleep`
suspension point) run the input-handler tasks created this tick. -/
def tick (a : CLIApp) (evs : List InputEvent) (now : ℚ) : CLIApp :=
  run_pending_inputs (process_responses (process_input (process_state a now) evs) now) now

end CLIApp

/-- The app at startup: lifecycle Idle, empty queues. -/
def c2app0 : CLIApp := {}

/-- Tick 1: the user submits `hi`; the turn starts (Processing, think call
in flight). -/
def c2app1 : CLIApp := CLIApp.tick c2app0 [{ type := .TEXT, text := ['h', 'i'] }] 1

/-- Tick 2: an Interrupt arrives mid-turn and forces the lifecycle to
Idle. -/
def c2app2 : CLIApp := CLIApp.tick c2app1 [{ type := .INTERRUPT }] 2

/-- The abandoned turn's think result `R` is delivered afterwards. -/
def c2app3 : CLIApp := CLIApp.brain_worker_ok c2app2 ['R']

/-- Tick 3 processes the late result. -/
def c2app4 : CLIApp := CLIApp.tick c2app3 [] 3

/-- C2: evaluation at the failing input.  After the Interrupt forces the
lifecycle to Idle mid-turn, the think result that arrives afterwards is
not discarded: `_process_responses` appends it to the conversation
history, starts the stream revealer on it, and dispatches the speak
worker, while the lifecycle transition Idle→Responding is merely refused —
contradicting the claim that a late result for an abandoned turn is never
applied to the lifecycle, the revealer, or the speak dispatch. -/
theorem C2_late_result_applied :
    c2app1.state.state = AppState.THINKING ∧
    c2app1.brain_calls = [['h', 'i']] ∧
    c2app2.state.state = AppState.IDLE ∧
    c2app4.state.state = AppState.IDLE ∧
    c2app4.renderer.full_text = ['R'] ∧
    StreamingRenderer.is_streaming c2app4.renderer = true ∧
    c2app4.speak_calls = [['R']] ∧
    c2app4.history.getLast? = some { role := Role.ai, content := ['R'] } := by
  decide

/-- The app at startup, used for the double-submission scenario. -/
def c3app0 : CLIApp := {}

/-- C3 counterexample: two Submit events processed in the same tick both
dispatch think calls — when the second scheduled handler task runs, the
lifecycle is already Processing (not Idle), yet the text is still enqueued
for background processing, contradicting the claimed Idle-only enqueue and
the at-most-one-think-in-flight guarantee. -/
theorem C3_counterexample :
    (CLIApp.tick c3app0
        [{ type := .TEXT, text := ['a'] }, { type := .TEXT, text := ['b'] }] 1).brain_calls =
      [['a'], ['b']] ∧
    (CLIApp.tick c3app0
        [{ type := .TEXT, text := ['a'] }, { type := .TEXT, text := ['b'] }] 1).state.state =
      AppState.THINKING := by
  decide

/-- C3 (amended): on a Submit event processed while the lifecycle is in
Error, the text is discarded and the lifecycle is forced to Idle; in every
other phase the text is scheduled unconditionally, and the scheduled
handler task appends the message, attempts the transition to Processing
ignoring its result, and always dispatches a think call.  A single
submission in a tick starting from Idle reaches Processing with one think
call in flight, but two submissions processed in the same tick both
dispatch think calls: the one-in-flight guarantee rests on the input
handler being disabled while not Idle/Error, not on lifecycle-gating at
enqueue time. -/
theorem C3_submit_gating (a : CLIApp) (t t1 t2 : List Char) (now : ℚ) :
    (a.state.state = AppState.ERROR →
      CLIApp.step_event a { type := .TEXT, text := t } =
        ({ a with input_handler := a.input_handler.clear_buffer,
                  state := a.state.force_state .IDLE }, true)) ∧
    (a.state.state ≠ AppState.ERROR →
      CLIApp.step_event a { type := .TEXT, text := t } =
        ({ a with input_handler := a.input_handler.clear_buffer,
                  pending_input_tasks := a.pending_input_tasks ++ [t] }, true)) ∧
    (CLIApp.handle_user_input a t now).brain_calls = a.brain_calls ++ [t] ∧
    (CLIApp.handle_user_input a t now).state = (a.state.transition_to .THINKING now).2 ∧
    (a.state.state = AppState.IDLE → a.pending_input_tasks = [] → a.response_queue = [] →
      (CLIApp.tick a [{ type := .TEXT, text := t }] now).brain_calls = a.brain_calls ++ [t] ∧
      (CLIApp.tick a [{ type := .TEXT, text := t }] now).state.state = AppState.THINKING) ∧
    (a.state.state = AppState.IDLE → a.pending_input_tasks = [] → a.response_queue = [] →
      (CLIApp.tick a [{ type := .TEXT, text := t1 }, { type := .TEXT, text := t2 }] now).brain_calls
        = a.brain_calls ++ [t1, t2]) := by
  refine ⟨?_, ?_, rfl, rfl, ?_, ?_⟩
  · intro herr
    simp [CLIApp.step_event, herr]
  · intro herr
    simp [CLIApp.step_event, herr]
  · intro hidle hpend hq
    constructor
    · simp [CLIApp.tick, CLIApp.process_state, CLIApp.process_input, CLIApp.process_events,
        CLIApp.step_event, CLIApp.process_responses, CLIApp.run_pending_inputs,
        CLIApp.handle_user_input, hidle, hpend, hq]
    · simp [CLIApp.tick, CLIApp.process_state, CLIApp.process_input, CLIApp.process_events,
        CLIApp.step_event, CLIApp.process_responses, CLIApp.run_pending_inputs,
        CLIApp.handle_user_input, StateManager.transition_to, VALID_TRANSITIONS,
        hidle, hpend, hq]
  · intro hidle hpend hq
    simp [CLIApp.tick, CLIApp.process_state, CLIApp.process_input, CLIApp.process_events,
      CLIApp.step_event, CLIApp.process_responses, CLIApp.run_pending_inputs,
      CLIApp.handle_user_input, hidle, hpend, hq]

/-- Witness for C3: the amended behaviour evaluated at startup state. -/
theorem C3_submit_gating_witness :
    (CLIApp.tick ({} : CLIApp) [{ type := .TEXT, text := ['a'] }] 1).brain_calls = [['a']] ∧
    (CLIApp.tick ({} : CLIApp) [{ type := .TEXT, text := ['a'] }] 1).state.state =
      AppState.THINKING :=
  (C3_submit_gating {} ['a'] ['a'] ['b'] 1).2.2.2.2.1 rfl rfl rfl

/-- An app sitting in Error with message `X` since time 0. -/
def c4app : CLIApp :=
  { state := { state := .ERROR, state_entered_at := 0, last_error := some "X" } }

/-- C4: evaluation at the failing inputs.  Both dismissal paths — the
polled 5-second timeout in `_process_state` and a text submission while in
Error — force the lifecycle back to Idle via `force_state`, which does not
clear the stored error message: `last_error` still reads `X` afterwards,
contradicting the claim that it reads null. -/
theorem C4_dismissal_keeps_message :
    ((CLIApp.process_state c4app 6).state.state = AppState.IDLE ∧
     (CLIApp.process_state c4app 6).state.last_error = some "X") ∧
    ((CLIApp.step_event c4app { type := .TEXT, text := ['h', 'i'] }).1.state.state =
        AppState.IDLE ∧
     (CLIApp.step_event c4app { type := .TEXT, text := ['h', 'i'] }).1.state.last_error =
        some "X") := by
  have hdur : (5 : ℚ) < c4app.state.duration 6 := by
    norm_num [StateManager.duration, c4app]
  have h1 : CLIApp.process_state c4app 6 =
      { c4app with input_handler := c4app.input_handler.enable, show_prompt := false,
                   state := c4app.state.force_state .IDLE } := by
    unfold CLIApp.process_state
    rw [if_neg (by decide), if_neg (by decide), if_neg (by decide), if_pos hdur]
  have h2 : (CLIApp.step_event c4app { type := .TEXT, text := ['h', 'i'] }).1 =
      { c4app with input_handler := c4app.input_handler.clear_buffer,
                   state := c4app.state.force_state .IDLE } := by
    unfold CLIApp.step_event
    rw [if_neg (by decide), if_neg (by decide), if_pos (by decide)]
    dsimp only
    rw [if_pos (by decide)]
  refine ⟨⟨?_, ?_⟩, ?_, ?_⟩
  · rw [h1]
    rfl
  · rw [h1]
    rfl
  · rw [h2]
    rfl
  · rw [h2]
    rfl
